import Mathlib

/-!
Shallow embedding of the WiFi-SDCF client (TypeScript) read stack:
byte buffers are `List Nat` (each element a byte value), Node.js `Buffer`
accessors are modelled with explicit bounds checks (`Option`-returning
readers model Node's `ERR_OUT_OF_RANGE` throw), and the asynchronous
protocol paths of `Card` are modelled as explicit state transitions.
-/

namespace WiFiSDCF

/-! ## Byte-buffer primitives (Node.js `Buffer` semantics) -/

/-- Node `buf.readUInt8(off)`: value at `off`, throws (here: `none`) when
`off + 1 > buf.length`. -/
def readU8 (b : List Nat) (off : Nat) : Option Nat :=
  if off + 1 ≤ b.length then some (b.getD off 0) else none

/-- Node `buf.readUInt16LE(off)` with its bounds check. -/
def readU16LE (b : List Nat) (off : Nat) : Option Nat :=
  if off + 2 ≤ b.length then some (b.getD off 0 + 256 * b.getD (off + 1) 0) else none

/-- Node `buf.readUInt32LE(off)` with its bounds check. -/
def readU32LE (b : List Nat) (off : Nat) : Option Nat :=
  if off + 4 ≤ b.length then
    some (b.getD off 0 + 256 * b.getD (off + 1) 0 + 65536 * b.getD (off + 2) 0
      + 16777216 * b.getD (off + 3) 0)
  else none

/-- Node `buf.readUInt16BE(off)` with its bounds check. -/
def readU16BE (b : List Nat) (off : Nat) : Option Nat :=
  if off + 2 ≤ b.length then some (256 * b.getD off 0 + b.getD (off + 1) 0) else none

/-- Node `buf.readUInt32BE(off)` with its bounds check. -/
def readU32BE (b : List Nat) (off : Nat) : Option Nat :=
  if off + 4 ≤ b.length then
    some (16777216 * b.getD off 0 + 65536 * b.getD (off + 1) 0
      + 256 * b.getD (off + 2) 0 + b.getD (off + 3) 0)
  else none

/-- Unchecked u16 LE getter, used only where the surrounding loop already
guarantees the offsets are in bounds (32-byte directory entry chunks). -/
def getU16LE (b : List Nat) (off : Nat) : Nat :=
  b.getD off 0 + 256 * b.getD (off + 1) 0

/-- Unchecked u32 LE getter, used only where the surrounding loop already
guarantees the offsets are in bounds (32-byte directory entry chunks). -/
def getU32LE (b : List Nat) (off : Nat) : Nat :=
  b.getD off 0 + 256 * b.getD (off + 1) 0 + 65536 * b.getD (off + 2) 0
    + 16777216 * b.getD (off + 3) 0

/-- JS `buf.slice(a, b)` for `0 ≤ a ≤ b` (end clamped to the length). -/
def jsSlice (b : List Nat) (from_ to_ : Nat) : List Nat :=
  (b.take to_).drop from_

/-- Write one byte at an offset (Node `buf[off] = v` / single write step). -/
def setByte (b : List Nat) (off v : Nat) : List Nat :=
  b.set off v

/-- Write a list of bytes starting at an offset (Node `buf.write(...)` for
ASCII data: each source byte lands at consecutive offsets). -/
def writeBytes (b : List Nat) (off : Nat) (data : List Nat) : List Nat :=
  match data with
  | [] => b
  | d :: rest => writeBytes (setByte b off d) (off + 1) rest

/-- Node `buf.writeUInt16BE(v, off)`; the scenarios only use in-range values,
so the value is split into its two big-endian bytes. -/
def writeU16BE (b : List Nat) (v off : Nat) : List Nat :=
  writeBytes b off [(v >>> 8) % 256, v % 256]

/-- Node `buf.writeUInt32BE(v, off)`; the scenarios only use in-range values,
so the value is split into its four big-endian bytes. -/
def writeU32BE (b : List Nat) (v off : Nat) : List Nat :=
  writeBytes b off [(v >>> 24) % 256, (v >>> 16) % 256, (v >>> 8) % 256, v % 256]

/-! ## MBRUtility (src `MBRUtility.ts`) -/

/-- `IPartitionInfo`: start LBA, sector count and detected file-system tag. -/
structure IPartitionInfo where
  startLBA : Nat
  length : Nat
  type : String
deriving DecidableEq, Repr

/-- `MBRUtility.detectFileSystem`: map an MBR partition type byte to the
file-system tag string returned by the source. -/
def detectFileSystem (partitionType : Nat) : String :=
  if partitionType = 0x0B ∨ partitionType = 0x0C then "FAT32"
  else if partitionType = 0x07 then "NTFS"
  else if partitionType = 0x83 then "Linux Filesystem"
  else if partitionType = 0x05 ∨ partitionType = 0x0F then "Extended Partition"
  else "Unknown"

/-- One iteration of the `MBRUtility.getPartitions` entry loop: read the type,
start LBA and length of table entry `i` (entry offset `446 + 16 * i`).
`none` models a Node read throwing out of range. -/
def readPartitionEntry (MBR : List Nat) (i : Nat) : Option (Nat × Nat × Nat) := do
  let entryOffset := 446 + i * 16
  let partitionType ← readU8 MBR (entryOffset + 4)
  let startLBA ← readU32LE MBR (entryOffset + 8)
  let length ← readU32LE MBR (entryOffset + 12)
  pure (partitionType, startLBA, length)

/-- `MBRUtility.getPartitions`, parameterised by the sector returned by the
awaited `card.readBinaryData(0, 1)`: loop over the four 16-byte table entries
at offset 446, skip type 0, keep table order. -/
def getPartitions (MBR : List Nat) : Option (List IPartitionInfo) :=
  (List.range 4).foldlM (fun partitions i => do
    let (partitionType, startLBA, length) ← readPartitionEntry MBR i
    if partitionType ≠ 0 then
      pure (partitions ++ [⟨startLBA, length, detectFileSystem partitionType⟩])
    else
      pure partitions) []

/-- Modelled from the claim wording (refinement reference for C3): the
partition list described by the spec, namely the non-zero-type table entries
in table order with their LE fields and mapped tags. -/
def mbrPartitionsSpec (MBR : List Nat) : List IPartitionInfo :=
  (List.range 4).filterMap (fun i =>
    let e := 446 + i * 16
    let t := MBR.getD (e + 4) 0
    if t = 0 then none
    else some ⟨getU32LE MBR (e + 8), getU32LE MBR (e + 12), detectFileSystem t⟩)

/-! ## Card — block read protocol (src `Card.ts`) -/

/-- ASCII char codes of a string (Node `buf.write(s, off, "ascii")` stores
`charCode & 0xFF` per character; all strings used here are plain ASCII). -/
def asciiBytes (s : String) : List Nat :=
  s.data.map (fun c => c.toNat % 256)

/-- Modelled from the spec: the `USERNAME` constant
(`src/constants/USERNAME.ts` is not under src/); spec section 6.5 gives the
default credentials "admin"/"admin". -/
def USERNAME : String := "admin"

/-- Modelled from the spec: the `PASSWORD` constant
(`src/constants/PASSWORD.ts` is not under src/); spec section 6.5 gives the
default credentials "admin"/"admin". -/
def PASSWORD : String := "admin"

/-- Modelled from the spec: the `READ_TIMEOUT` constant
(`src/constants/READ_TIMEOUT.ts` is not under src/); spec sections 4.3 and
6.5 give 5000 ms. -/
def READ_TIMEOUT : Nat := 5000

/-- The 52-byte command-4 request buffer built by `Card.readBinaryData`
(lines 90-103): `Buffer.alloc(52)` zero-fills, then the header, direction,
command, LBA, transfer count, credential lengths, credentials and transfer
id are written at their fixed offsets. -/
def buildReadRequest (LBA_start total_xfer_count transferId : Nat) : List Nat :=
  let msg := List.replicate 52 0
  let msg := writeBytes msg 0 (asciiBytes "FC1307")
  let msg := setByte msg 6 1
  let msg := setByte msg 7 4
  let msg := writeU32BE msg LBA_start 8
  let msg := writeU16BE msg total_xfer_count 12
  let msg := setByte msg 14 USERNAME.length
  let msg := setByte msg 15 PASSWORD.length
  let msg := writeBytes msg 16 (asciiBytes USERNAME)
  let msg := writeBytes msg 32 (asciiBytes PASSWORD)
  writeU32BE msg transferId 48

/-- State of one `ResolvablePromise` slot in `Card.dataPromises`: pending,
resolved with response data, or rejected by the read timer with a
`TimeoutError` carrying the original request bytes. A promise settles at
most once; later `resolve`/`reject` calls are no-ops. -/
inductive SlotState where
  | pending
  | resolvedWith (data : List Nat)
  | rejectedTimeout (request : List Nat)
deriving DecidableEq, Repr

/-- The `Card.dataPromises` object: transfer id keyed map of slots,
insertion ordered. -/
abbrev PendingMap := List (Nat × SlotState)

/-- Object property lookup `this.dataPromises[tid]`. -/
def lookupSlot (m : PendingMap) (tid : Nat) : Option SlotState :=
  match m with
  | [] => none
  | (k, s) :: rest => if k = tid then some s else lookupSlot rest tid

/-- Object property assignment `this.dataPromises[tid] = slot` (replaces in
place when the key exists, appends otherwise). -/
def setSlot (m : PendingMap) (tid : Nat) (s : SlotState) : PendingMap :=
  match m with
  | [] => [(tid, s)]
  | (k, old) :: rest => if k = tid then (k, s) :: rest else (k, old) :: setSlot rest tid s

/-- Object property deletion `delete this.dataPromises[tid]`. -/
def removeSlot (m : PendingMap) (tid : Nat) : PendingMap :=
  match m with
  | [] => []
  | (k, s) :: rest => if k = tid then rest else (k, s) :: removeSlot rest tid

/-- The mutable fields of a `Card` relevant to reads: the next transfer id
(starts at 93) and the pending promise map. -/
structure CardState where
  transferId : Nat
  dataPromises : PendingMap
deriving DecidableEq, Repr

/-- A freshly constructed `Card`. -/
def freshCard : CardState := ⟨93, []⟩

/-- Outcome of `Card.readBinaryData` on the path where no matching response
datagram arrives: state after the rejection propagates, elapsed time until
the failure, and the `TimeoutError` payload. -/
structure TimeoutOutcome where
  state : CardState
  elapsedMs : Nat
  timeoutPayload : List Nat
deriving DecidableEq, Repr

/-- `Card.readBinaryData(LBA_start, total_xfer_count)` (lines 90-131) when no
inbound datagram resolves the slot: the request is built with the current
transfer id, the id is incremented, a pending slot is inserted, and after
`READ_TIMEOUT` ms the timer finds the slot still present and rejects it with
`TimeoutError(msg)`. The rejection makes the `await` on line 127 throw, so
the `delete` on line 128 is never executed and the settled slot stays in the
map. -/
def readBinaryDataTimeout (c : CardState) (LBA_start total_xfer_count : Nat) :
    TimeoutOutcome :=
  let msg := buildReadRequest LBA_start total_xfer_count c.transferId
  let myTransferId := c.transferId
  let pend := setSlot c.dataPromises myTransferId .pending
  let pend := setSlot pend myTransferId (.rejectedTimeout msg)
  ⟨⟨c.transferId + 1, pend⟩, READ_TIMEOUT, msg⟩

/-- `Card.readBinaryData` on the path where a matching response datagram
resolves the slot before the timer fires: the `await` returns the data and
the `delete` on line 128 removes the slot. -/
def readBinaryDataResolved (c : CardState) (_LBA_start _total_xfer_count : Nat)
    (data : List Nat) : CardState × List Nat :=
  let myTransferId := c.transferId
  let pend := setSlot c.dataPromises myTransferId .pending
  let pend := setSlot pend myTransferId (.resolvedWith data)
  (⟨c.transferId + 1, removeSlot pend myTransferId⟩, data)

/-- The fixed-offset fields read by `Card.incomingReadData` (lines 172-178). -/
structure ParsedReadData where
  lba : Nat
  lbaOffset : Nat
  flags : Nat
  nBytes : Nat
  tid : Nat
  padding : Nat
  storageData : List Nat
deriving DecidableEq, Repr

/-- The field extraction of `Card.incomingReadData`: six fixed-offset reads
(the furthest needs bytes up to offset 23) and a clamped `slice` for the
payload. `none` models a Node buffer read throwing out of range. -/
def parseIncomingReadData (msg : List Nat) : Option ParsedReadData := do
  let lba ← readU32BE msg 8
  let lbaOffset ← readU16BE msg 12
  let flags ← readU16BE msg 14
  let nBytes ← readU16BE msg 16
  let tid ← readU32BE msg 18
  let padding ← readU16BE msg 22
  pure ⟨lba, lbaOffset, flags, nBytes, tid, padding, jsSlice msg 24 (24 + nBytes)⟩

/-- Observable outcome of dispatching one inbound datagram. -/
inductive DispatchResult where
  | resolvedSlot
  | unknownTransferId
  | raised
  | ignored
deriving DecidableEq, Repr

/-- `Card.incomingReadData` (lines 157-185): parse the datagram, then if a
slot exists for `tid`, call `resolve(storageData)` on it (a no-op when the
promise is already settled); otherwise log the unknown transfer id and drop
the packet. A failed field read propagates as a raised `RangeError`. -/
def incomingReadData (pend : PendingMap) (msg : List Nat) :
    PendingMap × DispatchResult :=
  match parseIncomingReadData msg with
  | none => (pend, .raised)
  | some p =>
    match lookupSlot pend p.tid with
    | some slot =>
      let slot' := match slot with
        | .pending => .resolvedWith p.storageData
        | settled => settled
      (setSlot pend p.tid slot', .resolvedSlot)
    | none => (pend, .unknownTransferId)

/-- `Card.onMessage` (lines 134-154): read the command byte at offset 7 and
dispatch command 4 to `incomingReadData`; other commands are ignored. -/
def onMessage (pend : PendingMap) (msg : List Nat) : PendingMap × DispatchResult :=
  match readU8 msg 7 with
  | none => (pend, .raised)
  | some cmd => if cmd = 4 then incomingReadData pend msg else (pend, .ignored)

/-- Result of `Card.getFileSystemAdapter`. -/
inductive FsAdapterResult where
  | fat32 (partition : IPartitionInfo)
deriving DecidableEq, Repr

/-- Failures of `Card.getFileSystemAdapter`. `jsTypeError` models the
TypeError JS raises when `partitions[partition]` is `undefined` and its
`.type` property is read. -/
inductive CardError where
  | partitionDoesNotExist (partition : Nat)
  | unsupportedFileSystem (tag : String)
  | jsTypeError
deriving DecidableEq, Repr

/-- `Card.getFileSystemAdapter(partition)` (lines 46-61), parameterised by
the partition list the awaited `MbrUtility.getPartitions()` returned. The
source bounds check is `partitions.length < partition`. The `FAT32` case of
the `switch` compares against `EFileSystems.FAT32`; the enum file is not
under src/, and per the spec its value must match the tag produced by
`MBRUtility.detectFileSystem`, i.e. "FAT32". -/
def getFileSystemAdapter (partitions : List IPartitionInfo) (partition : Nat) :
    Except CardError FsAdapterResult :=
  if partitions.length < partition then
    .error (.partitionDoesNotExist partition)
  else
    match partitions.get? partition with
    | none => .error .jsTypeError
    | some p =>
      if p.type = "FAT32" then .ok (.fat32 p)
      else .error (.unsupportedFileSystem p.type)

/-! ## UDP transport subscriptions (src `UdpServer.ts`) and `Card.destroy` -/

/-- The `UdpServer.subscribers` table: per-peer handlers keyed by source IP.
Handlers are modelled as opaque tokens. -/
abbrev SubscriberMap := List (String × Nat)

/-- Object lookup in the subscriber table. -/
def lookupSubscriber (m : SubscriberMap) (ip : String) : Option Nat :=
  match m with
  | [] => none
  | (k, h) :: rest => if k = ip then some h else lookupSubscriber rest ip

/-- `UdpServer.subscribeForCard(ip, callback)`: install (or replace) the
per-peer handler for `ip`. -/
def subscribeForCard (m : SubscriberMap) (ip : String) (handler : Nat) : SubscriberMap :=
  match m with
  | [] => [(ip, handler)]
  | (k, h) :: rest =>
    if k = ip then (k, handler) :: rest else (k, h) :: subscribeForCard rest ip handler

/-- `UdpServer.unsubscribeForCard(ip)`: delete the per-peer handler. -/
def unsubscribeForCard (m : SubscriberMap) (ip : String) : SubscriberMap :=
  match m with
  | [] => []
  | (k, h) :: rest => if k = ip then rest else (k, h) :: unsubscribeForCard rest ip

/-- The `Card` constructor's transport effect (line 31):
`udpServerInstance.subscribeForCard(this.ip, ...)`. -/
def cardConstructorSubscribe (m : SubscriberMap) (ip : String) (handler : Nat) :
    SubscriberMap :=
  subscribeForCard m ip handler

/-- `Card.destroy()` (lines 38-40): the method body is empty, so the
transport state is unchanged. -/
def cardDestroy (m : SubscriberMap) (_ip : String) : SubscriberMap :=
  m

/-! ## FAT32Adapter (src `fs/FAT32Adapter.ts`)

The card is abstracted as a sector store `disk : Nat → List Nat` mapping an
absolute LBA to that sector's bytes; `card.readBinaryData(lba, count)`
returns the `count` sectors starting at `lba` concatenated in order (spec
section 6.3: the card answers a block-read with the requested sectors). -/

/-- The concatenated sectors a successful `card.readBinaryData(lba, count)`
call delivers. -/
def cardRead (disk : Nat → List Nat) (lba count : Nat) : List Nat :=
  ((List.range count).map (fun i => disk (lba + i))).flatten

/-- The BPB-derived fields of a `FAT32Adapter` used by reads and listings
(`sectorSize`, `sectorsPerCluster` from the BPB; `firstDataSector`,
`fatStartLBA` computed in `readBIOSParameterBlock`; `startLBA` from the
partition; `rootCluster` from the BPB). -/
structure FatParams where
  sectorSize : Nat
  sectorsPerCluster : Nat
  firstDataSector : Nat
  fatStartLBA : Nat
  startLBA : Nat
  rootCluster : Nat
deriving DecidableEq, Repr

/-- Bytes per cluster, `this.sectorSize * this.sectorsPerCluster`. -/
def clusterSize (p : FatParams) : Nat :=
  p.sectorSize * p.sectorsPerCluster

/-- `FAT32Adapter.calculateFirstSectorOfCluster(n)`:
`(n - 2) * sectorsPerCluster + firstDataSector`. Callers reach it only with
`n ≥ 2` on the paths verified here, where JS and truncated Nat subtraction
agree. -/
def calculateFirstSectorOfCluster (p : FatParams) (n : Nat) : Nat :=
  (n - 2) * p.sectorsPerCluster + p.firstDataSector

/-- The inner batching loop shared by `getFileContent` and `listCluster`,
with an explicit structural fuel: read `sectorsLeft` sectors starting at
absolute LBA `base + sectorOffset` in batches of at most 14 sectors,
concatenating the buffers in order. Each iteration reads at least one
sector, so `fuel = sectorsLeft` dominates the JS loop's iteration count. -/
def batchReadAux (disk : Nat → List Nat) (base : Nat) :
    Nat → Nat → Nat → List Nat
  | 0, _, _ => []
  | fuel + 1, sectorsLeft, sectorOffset =>
    if sectorsLeft = 0 then []
    else
      let batch := min sectorsLeft 14
      cardRead disk (base + sectorOffset) batch ++
        batchReadAux disk base fuel (sectorsLeft - batch) (sectorOffset + batch)

/-- The `while(sectorsLeft > 0)` batching loop, entered with
`sectorsLeft` sectors to read and sector offset 0. -/
def batchRead (disk : Nat → List Nat) (base sectorsLeft sectorOffset : Nat) :
    List Nat :=
  batchReadAux disk base sectorsLeft sectorsLeft sectorOffset

/-- Reading one whole cluster: the batching loop over `sectorsPerCluster`
sectors starting at `partitionInfo.startLBA + calculateFirstSectorOfCluster`. -/
def readWholeCluster (disk : Nat → List Nat) (p : FatParams) (cluster : Nat) :
    List Nat :=
  batchRead disk (p.startLBA + calculateFirstSectorOfCluster p cluster)
    p.sectorsPerCluster 0

/-- The FAT lookup step of `getFileContent` (lines 198-207): compute the FAT
sector and intra-sector offset for `cluster`, read one sector at
`fatStartLBA + fatSector`, take the u32 LE there and mask with `0x0FFFFFFF`.
`none` models the Node read throwing out of range. -/
def fatLookup (disk : Nat → List Nat) (p : FatParams) (cluster : Nat) :
    Option Nat := do
  let fatOffset := cluster * 4
  let fatSector := fatOffset / p.sectorSize
  let sectorOffsetFAT := fatOffset % p.sectorSize
  let v ← readU32LE (cardRead disk (p.fatStartLBA + fatSector) 1) sectorOffsetFAT
  pure (v &&& 0x0FFFFFFF)

/-- The chain successor as a total function (used to describe the cluster
chain a volume defines; coincides with `fatLookup` whenever the FAT read is
in bounds). -/
def fatNext (disk : Nat → List Nat) (p : FatParams) (cluster : Nat) : Nat :=
  (fatLookup disk p cluster).getD 0

/-- The while loop of `FAT32Adapter.getFileContent` (lines 174-208),
instrumented with the list of clusters for which data reads were issued.
`fuel` bounds the iteration count (the JS loop terminates because
`remaining` strictly decreases whenever the cluster size is positive);
`none` means the fuel ran out or a FAT read was out of bounds. -/
def getFileContentLoop (disk : Nat → List Nat) (p : FatParams) :
    Nat → Nat → Nat → Option (List Nat × List Nat)
  | 0, _, _ => none
  | fuel + 1, remaining, cluster =>
    if 2 ≤ cluster ∧ cluster < 0x0FFFFFF8 ∧ 0 < remaining then
      let buffer := readWholeCluster disk p cluster
      let toCopy := min remaining (clusterSize p)
      match fatLookup disk p cluster with
      | none => none
      | some next =>
        match getFileContentLoop disk p fuel (remaining - toCopy) next with
        | none => none
        | some (bytes, reads) => some (buffer.take toCopy ++ bytes, cluster :: reads)
    else
      some ([], [])

/-- `FAT32Adapter.getFileContent` for an entry with the given `size` and
`clusterNumber`: run the chain walk, returning the concatenated output and
the instrumentation list of data-read clusters. The fuel `size + 1`
dominates the JS loop's iteration count whenever the cluster size is
positive. -/
def getFileContent (disk : Nat → List Nat) (p : FatParams)
    (size clusterNumber : Nat) : Option (List Nat × List Nat) :=
  getFileContentLoop disk p (size + 1) size clusterNumber

/-- The cluster chain determined by the volume's FAT, as walked by the
source: follow `fatNext` while `2 ≤ c ∧ c < 0x0FFFFFF8`, up to `fuel`
clusters. -/
def chainClusters (disk : Nat → List Nat) (p : FatParams) :
    Nat → Nat → List Nat
  | 0, _ => []
  | fuel + 1, c =>
    if 2 ≤ c ∧ c < 0x0FFFFFF8 then
      c :: chainClusters disk p fuel (fatNext disk p c)
    else []

/-! ### Directory entry parsing (`listCluster`, lines 328-418) -/

/-- A JS `Date` as produced by `parseFatDateTime`: either the epoch (for a
zero month or day) or calendar components (year, 1-based month, day, hour,
minute, second). Equality models `getTime()` equality; the test volumes only
use in-range components, where the two agree. -/
inductive JsDate where
  | epoch
  | ymd (year month day hour minute second : Nat)
deriving DecidableEq, Repr

/-- `FAT32Adapter.parseFatDateTime(date, time)` (lines 421-449). -/
def parseFatDateTime (date time : Nat) : JsDate :=
  let year := 1980 + (date >>> 9)
  let month := (date >>> 5) &&& 0b1111
  let day := date &&& 0b11111
  let hour := time >>> 11
  let minute := (time >>> 5) &&& 0b111111
  let second := (time &&& 0b11111) * 2
  if month = 0 ∨ day = 0 then .epoch
  else .ymd year month day hour minute second

/-- `IFileInfo` as produced by `listCluster`. `clusterNumber` is
`(readUInt16LE(20) << 16) | readUInt16LE(26)`; JS evaluates this with int32
semantics, which agrees with the Nat value whenever the high word is below
0x8000 (the only regime a FAT32 volume produces for reachable data). -/
structure IFileInfo where
  name : String
  size : Nat
  isDirectory : Bool
  clusterNumber : Nat
  creationTime : JsDate
  modificationTime : JsDate
deriving DecidableEq, Repr

/-- Decode a byte list as UTF-16 LE code units (Node
`buf.toString('utf16le')`; a trailing odd byte is dropped). The LFN
fragments decoded here carry BMP characters only, where a code unit is a
character. -/
def utf16leUnits : List Nat → List Nat
  | b0 :: b1 :: rest => (b0 + 256 * b1) :: utf16leUnits rest
  | _ => []

/-- JS `namePart.split('\0')[0]` on the decoded units, then to a string. -/
def unitsBeforeNull (units : List Nat) : String :=
  ⟨(units.takeWhile (fun u => u ≠ 0)).map Char.ofNat⟩

/-- JS whitespace test for `String.prototype.trim` restricted to the ASCII
range; the trimmed strings here come from Node 'ascii' decoding (`byte &
0x7F`), so this covers every character that can occur. -/
def isJsWhitespace (c : Char) : Bool :=
  c = ' ' ∨ (9 ≤ c.toNat ∧ c.toNat ≤ 13)

/-- JS `s.trim()`. -/
def jsTrim (s : String) : String :=
  ⟨(s.data.dropWhile isJsWhitespace).reverse.dropWhile isJsWhitespace |>.reverse⟩

/-- Node `buf.toString('ascii', a, b)`: each byte masked with 0x7F. -/
def asciiSlice (b : List Nat) (from_ to_ : Nat) : String :=
  ⟨(jsSlice b from_ to_).map (fun x => Char.ofNat (x &&& 0x7F))⟩

/-- The 8.3 short name built on lines 395-399: bytes [0,8) trimmed, plus a
dot and bytes [8,11) trimmed when the extension is non-empty. -/
def shortName (entry : List Nat) : String :=
  let name := jsTrim (asciiSlice entry 0 8)
  let ext := jsTrim (asciiSlice entry 8 11)
  if ext.length > 0 then name ++ "." ++ ext else name

/-- The LFN fragment text of one 0x0F entry (lines 373-377): UTF-16 LE
characters from byte ranges [1,11), [14,26), [28,32), truncated at the
first U+0000. -/
def lfnFragment (entry : List Nat) : String :=
  let name1 := jsSlice entry 1 11
  let name2 := jsSlice entry 14 26
  let name3 := jsSlice entry 28 32
  unitsBeforeNull (utf16leUnits (name1 ++ name2 ++ name3))

/-- Build the `IFileInfo` for a short entry (lines 402-414). -/
def shortEntryInfo (entry : List Nat) (name : String) : IFileInfo :=
  { name := name
    size := getU32LE entry 28
    isDirectory := (entry.getD 11 0 &&& 0x10) ≠ 0
    clusterNumber := (getU16LE entry 20) <<< 16 ||| getU16LE entry 26
    creationTime := parseFatDateTime (getU16LE entry 16) (getU16LE entry 14)
    modificationTime := parseFatDateTime (getU16LE entry 24) (getU16LE entry 22) }

/-- The 32-byte windows visited by the entry loop
`for(offset = 0; offset + 32 <= buffer.length; offset += 32)`, with an
explicit structural fuel (each step drops 32 bytes, so `fuel =
buffer.length` dominates the iteration count). -/
def entryChunksAux : Nat → List Nat → List (List Nat)
  | 0, _ => []
  | fuel + 1, buffer =>
    if 32 ≤ buffer.length then
      buffer.take 32 :: entryChunksAux fuel (buffer.drop 32)
    else []

/-- The 32-byte windows visited by the entry loop of `listCluster`. -/
def entryChunks (buffer : List Nat) : List (List Nat) :=
  entryChunksAux buffer.length buffer

/-- The entry-parsing loop of `listCluster` (lines 348-415), carried over the
32-byte chunks with the accumulating long-name buffer `longFileName`:
first byte 0x00 ends the directory; 0xE5 skips a free slot; attribute 0x0F
prepends the LFN fragment when its order (`entry[0] & 0x1F`) is positive;
first byte 0x05 is rewritten to 0xE5; a short entry consumes the LFN buffer
as its name (clearing it) or falls back to the 8.3 name. -/
def parseDirEntries : List (List Nat) → String → List IFileInfo
  | [], _ => []
  | entry :: rest, longFileName =>
    if entry.getD 0 0 = 0x00 then []
    else if entry.getD 0 0 = 0xE5 then parseDirEntries rest longFileName
    else if entry.getD 11 0 = 0x0F then
      let order := entry.getD 0 0 &&& 0x1F
      if order > 0 then
        parseDirEntries rest (lfnFragment entry ++ longFileName)
      else
        parseDirEntries rest longFileName
    else
      let entry := if entry.getD 0 0 = 0x05 then setByte entry 0 0xE5 else entry
      if longFileName.length > 0 then
        shortEntryInfo entry longFileName :: parseDirEntries rest ""
      else
        shortEntryInfo entry (shortName entry) :: parseDirEntries rest ""

/-- `FAT32Adapter.listCluster(clusterNumber)` (lines 328-418): read the whole
cluster through the 14-sector batching loop, then parse its 32-byte
directory entries starting with an empty long-name buffer. -/
def listCluster (disk : Nat → List Nat) (p : FatParams) (clusterNumber : Nat) :
    List IFileInfo :=
  parseDirEntries (entryChunks (readWholeCluster disk p clusterNumber)) ""

/-! ### `listFolder` (lines 217-243) -/

/-- JS `path.toUpperCase()` for the ASCII strings handled here (JS is
Unicode-aware, but FAT paths in this stack are ASCII, where `Char.toUpper`
implements the same mapping). -/
def jsToUpper (s : String) : String :=
  ⟨s.data.map Char.toUpper⟩

/-- JS `String.prototype.split` with a one-character separator: empty
segments are kept, `"".split(sep)` is `[""]`. -/
def splitOnChar (sep : Char) : List Char → List (List Char)
  | [] => [[]]
  | c :: rest =>
    match splitOnChar sep rest with
    | [] => [[]]
    | seg :: segs => if c = sep then [] :: seg :: segs else (c :: seg) :: segs

/-- The path segments `listFolder` walks: uppercase, then split on '/'. -/
def pathSegments (path : String) : List String :=
  (splitOnChar '/' (jsToUpper path).data).map (fun cs => ⟨cs⟩)

/-- The `files.find(file => file.name === folderName && file.isDirectory)`
lookup of the `listFolder` loop: strict string equality on the stored name,
directory bit required. -/
def findFolder (files : List IFileInfo) (folderName : String) : Option IFileInfo :=
  files.find? (fun file => file.name = folderName ∧ file.isDirectory)

/-- Failures surfaced by the adapter's traversal. -/
inductive FsError where
  | folderNotFound (name : String)
deriving DecidableEq, Repr

/-- The `while(paths.length > 0)` loop of `listFolder`: skip empty segments
(`if(!folderName) continue`), find the matching directory entry, descend
into its cluster; a missing segment throws `Folder ... not found`. -/
def listFolderLoop (disk : Nat → List Nat) (p : FatParams) :
    List String → List IFileInfo → Except FsError (List IFileInfo)
  | [], files => .ok files
  | folderName :: rest, files =>
    if folderName = "" then listFolderLoop disk p rest files
    else
      match findFolder files folderName with
      | none => .error (.folderNotFound folderName)
      | some folder => listFolderLoop disk p rest (listCluster disk p folder.clusterNumber)

/-- `FAT32Adapter.listFolder(path)` for a string path (lines 224-242):
uppercase the path, split on '/', start from the root listing
(`listRoot` = `listCluster(rootCluster)`), walk the segments. -/
def listFolder (disk : Nat → List Nat) (p : FatParams) (path : String) :
    Except FsError (List IFileInfo) :=
  listFolderLoop disk p (pathSegments path) (listCluster disk p p.rootCluster)

/-! ## WatchDirectory (src `WatchDirectory.ts`) -/

/-- The per-file data the watcher reads off a `File` object: name, size and
modification date. -/
structure WFile where
  name : String
  size : Nat
  modificationDate : JsDate
deriving DecidableEq, Repr

/-- Generic JS-object map operations over string keys (insertion ordered;
assignment replaces in place, deletion removes the key). -/
def objLookup {α : Type} (m : List (String × α)) (k : String) : Option α :=
  match m with
  | [] => none
  | (k', v) :: rest => if k' = k then some v else objLookup rest k

/-- JS object property assignment. -/
def objSet {α : Type} (m : List (String × α)) (k : String) (v : α) :
    List (String × α) :=
  match m with
  | [] => [(k, v)]
  | (k', v') :: rest => if k' = k then (k', v) :: rest else (k', v') :: objSet rest k v

/-- JS object property deletion. -/
def objDelete {α : Type} (m : List (String × α)) (k : String) :
    List (String × α) :=
  match m with
  | [] => []
  | (k', v') :: rest => if k' = k then rest else (k', v') :: objDelete rest k

/-- The `currentFiles` object built at the top of `detectChanges` (lines
75-78): name-keyed, later files overwrite earlier ones. -/
def currentFilesMap (files : List WFile) : List (String × WFile) :=
  files.foldl (fun m f => objSet m f.name f) []

/-- Watcher state: `alreadyDiscoveredFiles` (known) and `unstableFiles`
(name to last seen size and detection timestamp). -/
structure WatchState where
  known : List (String × WFile)
  unstable : List (String × (Nat × Nat))
deriving DecidableEq, Repr

/-- The first `detectChanges` pass (lines 81-101): for each listed file, a
known file whose modification date or size changed is classified modified
and the known entry updated; an unknown file is (re)entered into
`unstableFiles` with the current size and `now` whenever it is absent there
or its recorded size differs. -/
def watchPass1 (now : Nat) : List WFile → WatchState → WatchState × List WFile
  | [], s => (s, [])
  | file :: rest, s =>
    match objLookup s.known file.name with
    | some existingFile =>
      if existingFile.modificationDate ≠ file.modificationDate ∨
          existingFile.size ≠ file.size then
        let r := watchPass1 now rest { s with known := objSet s.known file.name file }
        (r.1, file :: r.2)
      else watchPass1 now rest s
    | none =>
      match objLookup s.unstable file.name with
      | some unstableFile =>
        if unstableFile.1 ≠ file.size then
          watchPass1 now rest
            { s with unstable := objSet s.unstable file.name (file.size, now) }
        else watchPass1 now rest s
      | none =>
        watchPass1 now rest
          { s with unstable := objSet s.unstable file.name (file.size, now) }

/-- The stability pass (lines 104-121), iterating over the unstable keys: a
file still listed with the same size becomes new once
`now - detectedAt > checkInterval * 2`; a file no longer listed is dropped
from `unstableFiles` silently. -/
def watchPass2 (checkInterval : Nat) (current : List (String × WFile)) (now : Nat) :
    List (String × (Nat × Nat)) → WatchState → WatchState × List WFile
  | [], s => (s, [])
  | (fileName, unstableFile) :: rest, s =>
    match objLookup current fileName with
    | some currentFile =>
      if unstableFile.1 = currentFile.size then
        if now - unstableFile.2 > checkInterval * 2 then
          let r := watchPass2 checkInterval current now rest
            { s with known := objSet s.known fileName currentFile
                     unstable := objDelete s.unstable fileName }
          (r.1, currentFile :: r.2)
        else watchPass2 checkInterval current now rest s
      else watchPass2 checkInterval current now rest s
    | none =>
      watchPass2 checkInterval current now rest
        { s with unstable := objDelete s.unstable fileName }

/-- The removal pass (lines 125-130), iterating over the known keys: a known
file no longer listed is classified removed and dropped. -/
def watchPass3 (current : List (String × WFile)) :
    List (String × WFile) → WatchState → WatchState × List WFile
  | [], s => (s, [])
  | (fileName, knownFile) :: rest, s =>
    match objLookup current fileName with
    | some _ => watchPass3 current rest s
    | none =>
      let r := watchPass3 current rest { s with known := objDelete s.known fileName }
      (r.1, knownFile :: r.2)

/-- The callbacks one `detectChanges` pass fires, in dispatch order
(all new, then all modified, then all removed). -/
structure WatchEvents where
  newFiles : List WFile
  modifiedFiles : List WFile
  removedFiles : List WFile
deriving DecidableEq, Repr

/-- `WatchDirectory.detectChanges` (lines 67-135) over the fresh listing
`files` at time `now` (the few `Date.now()` calls within one pass are
modelled as the same instant). -/
def detectChanges (checkInterval : Nat) (s : WatchState) (files : List WFile)
    (now : Nat) : WatchState × WatchEvents :=
  let current := currentFilesMap files
  let (s1, modifiedFiles) := watchPass1 now files s
  let (s2, newFiles) := watchPass2 checkInterval current now s1.unstable s1
  let (s3, removedFiles) := watchPass3 current s2.known s2
  (s3, ⟨newFiles, modifiedFiles, removedFiles⟩)

/-- `WatchDirectory.start` seeding (`initExistingFiles`, lines 57-64): every
file of the initial listing becomes known; `unstableFiles` starts empty. -/
def watchSeed (files : List WFile) : WatchState :=
  ⟨files.foldl (fun m f => objSet m f.name f) [], []⟩

/-! ## Concrete test volumes and datagrams used by the claims -/

/-- Partition table entry 0 of scenario S3: type 0x0C, start LBA 0x800,
length 0x2000 (both little-endian). -/
def mbrEntry0 : List Nat := [0, 0, 0, 0, 0x0C, 0, 0, 0, 0x00, 0x08, 0, 0, 0x00, 0x20, 0, 0]

/-- The 512-byte MBR sector of scenario S3: entry 0 as above, entries 1-3
zeroed. -/
def mbrS3 : List Nat :=
  List.replicate 446 0 ++ mbrEntry0 ++ List.replicate 48 0 ++ [0x55, 0xAA]

/-- The 52-byte request `readBinaryData(0, 1)` sends from a fresh card
(transfer id 93). -/
def s2Request : List Nat := buildReadRequest 0 1 93

/-- A well-formed 24-byte command-4 response datagram for transfer id 93
with an empty payload, as might arrive after the read timed out. -/
def lateResponse93 : List Nat :=
  [70, 67, 49, 51, 48, 55, 2, 4] ++ [0, 0, 0, 0] ++ [0, 0] ++ [0, 24] ++ [0, 0]
    ++ [0, 0, 0, 93] ++ [0, 0]

/-- A command-4 datagram of only 8 bytes: byte 7 is 4, but the fixed-offset
field reads need 24 bytes. -/
def shortDatagram4 : List Nat := [0, 0, 0, 0, 0, 0, 0, 4]

/-- The FAT sector of scenario S4: entries `2 → 3`, `3 → 4`,
`4 → 0x0FFFFFFF` (little-endian u32 each), rest zero. -/
def s4fat : List Nat :=
  [0, 0, 0, 0, 0, 0, 0, 0, 3, 0, 0, 0, 4, 0, 0, 0, 255, 255, 255, 15]
    ++ List.replicate 492 0

/-- Scenario S4 volume parameters: sector size 512, one sector per cluster,
first data sector 1, FAT at LBA 0, partition start 0, root cluster 2. -/
def s4params : FatParams := ⟨512, 1, 1, 0, 0, 2⟩

/-- Scenario S4 sector store: the FAT at LBA 0 and the three 512-byte
cluster payloads (bytes 65, 66, 67) at LBAs 1-3. -/
def s4disk : Nat → List Nat := fun lba =>
  if lba = 0 then s4fat
  else if lba = 1 then List.replicate 512 65
  else if lba = 2 then List.replicate 512 66
  else if lba = 3 then List.replicate 512 67
  else List.replicate 512 0

/-- Scenario S5, first directory entry: LFN fragment of order 2 carrying
"e.jpg" (UTF-16 LE, null-terminated, 0xFFFF padding), attribute 0x0F. -/
def lfnE1 : List Nat :=
  [0x02, 101, 0, 46, 0, 106, 0, 112, 0, 103, 0, 0x0F, 0, 0,
   0, 0, 255, 255, 255, 255, 255, 255, 255, 255, 255, 255, 0, 0, 255, 255, 255, 255]

/-- Scenario S5, second directory entry: LFN fragment of order 1 | 0x40
carrying "longname", attribute 0x0F. -/
def lfnE2 : List Nat :=
  [0x41, 108, 0, 111, 0, 110, 0, 103, 0, 110, 0, 0x0F, 0, 0,
   97, 0, 109, 0, 101, 0, 0, 0, 255, 255, 255, 255, 0, 0, 255, 255, 255, 255]

/-- Scenario S5, third directory entry: short entry "LONGNA~1.JPG",
attribute 0x20, first cluster 5, size 16. -/
def shortE3 : List Nat :=
  [76, 79, 78, 71, 78, 65, 126, 49, 74, 80, 71, 0x20, 0, 0, 0, 0,
   0, 0, 0, 0, 0, 0, 0, 0, 0, 0, 5, 0, 16, 0, 0, 0]

/-- Scenario S5, fourth directory entry: short entry with 8.3 bytes
"README  TXT", attribute 0x20, no preceding LFN. -/
def shortE4 : List Nat :=
  [82, 69, 65, 68, 77, 69, 32, 32, 84, 88, 84, 0x20, 0, 0, 0, 0,
   0, 0, 0, 0, 0, 0, 0, 0, 0, 0, 0, 0, 0, 0, 0, 0]

/-- The S5 directory cluster: the four entries above, then zero fill (the
fifth entry's first byte 0x00 ends the directory). -/
def dirClusterC2 : List Nat :=
  lfnE1 ++ lfnE2 ++ shortE3 ++ shortE4 ++ List.replicate 384 0

/-- Volume parameters for the S5 directory listing (identical geometry to
S4; root cluster 2 maps to LBA 1). -/
def c2params : FatParams := ⟨512, 1, 1, 0, 0, 2⟩

/-- Sector store for S5: the directory cluster at LBA 1. -/
def c2disk : Nat → List Nat := fun lba =>
  if lba = 1 then dirClusterC2 else List.replicate 512 0

/-- Scenario S6: `a.jpg` as listed at t=0 (1000 bytes). -/
def wA1000 : WFile := ⟨"a.jpg", 1000, .epoch⟩

/-- Scenario S6: `a.jpg` as listed from t=1000 on (1500 bytes). -/
def wA1500 : WFile := ⟨"a.jpg", 1500, .epoch⟩

/-- The four S6 watcher passes: seed with the t=0 listing, then detection
passes at t=0, 1000, 2000, 3000 (sizes 1000, 1500, 1500, 1500). Returns the
event records of the four passes in order. -/
def watcherS6Events : List WatchEvents :=
  let s0 := watchSeed [wA1000]
  let r1 := detectChanges 1000 s0 [wA1000] 0
  let r2 := detectChanges 1000 r1.1 [wA1500] 1000
  let r3 := detectChanges 1000 r2.1 [wA1500] 2000
  let r4 := detectChanges 1000 r3.1 [wA1500] 3000
  [r1.2, r2.2, r3.2, r4.2]

/-- An ASCII-lowercase-letter test on a character (the characters FAT names
produced by this adapter contain are ASCII). -/
def isAsciiLower (c : Char) : Bool :=
  97 ≤ c.toNat ∧ c.toNat ≤ 122

/-- Whether a stored entry name contains a lowercase ASCII letter. -/
def hasAsciiLower (s : String) : Bool :=
  s.data.any isAsciiLower

/-! ## Shared lemmas -/

/-- `Char.toUpper` (the ASCII mapping JS `toUpperCase` applies to the
characters occurring here) never produces a lowercase ASCII letter. -/
theorem toUpper_not_asciiLower (c : Char) : isAsciiLower (Char.toUpper c) = false := by
  simp only [Char.toUpper]
  split_ifs with h
  · obtain ⟨h1, h2⟩ := h
    generalize hgen : Char.toNat c = n at h1 h2 ⊢
    interval_cases n <;> decide
  · simp only [isAsciiLower, decide_eq_false_iff_not]
    omega

/-- Every character of every segment produced by `splitOnChar` occurs in the
split input. -/
theorem splitOnChar_chars (sep : Char) (l : List Char) :
    ∀ seg ∈ splitOnChar sep l, ∀ c ∈ seg, c ∈ l := by
  induction l with
  | nil =>
    intro seg hseg c hc
    simp only [splitOnChar, List.mem_singleton] at hseg
    subst hseg
    simp at hc
  | cons a rest ih =>
    intro seg hseg c hc
    unfold splitOnChar at hseg
    cases hsplit : splitOnChar sep rest with
    | nil =>
      simp only [hsplit, List.mem_singleton] at hseg
      subst hseg
      simp at hc
    | cons s ss =>
      simp only [hsplit] at hseg
      by_cases ha : a = sep
      · rw [if_pos ha] at hseg
        simp only [List.mem_cons] at hseg
        rcases hseg with h | h | h
        · subst h; simp at hc
        · subst h
          exact List.mem_cons_of_mem a
            (ih seg (by rw [hsplit]; exact List.mem_cons_self seg ss) c hc)
        · exact List.mem_cons_of_mem a
            (ih seg (by rw [hsplit]; exact List.mem_cons_of_mem s h) c hc)
      · rw [if_neg ha] at hseg
        simp only [List.mem_cons] at hseg
        rcases hseg with h | h
        · subst h
          rcases List.mem_cons.mp hc with rfl | hc2
          · exact List.mem_cons_self _ _
          · exact List.mem_cons_of_mem a
              (ih s (by rw [hsplit]; exact List.mem_cons_self s ss) c hc2)
        · exact List.mem_cons_of_mem a
            (ih seg (by rw [hsplit]; exact List.mem_cons_of_mem s h) c hc)

/-- `cardRead` splits along sector counts. -/
theorem cardRead_append (disk : Nat → List Nat) (lba a b : Nat) :
    cardRead disk lba (a + b) = cardRead disk lba a ++ cardRead disk (lba + a) b := by
  unfold cardRead
  rw [List.range_add, List.map_append, List.flatten_append]
  congr 1
  rw [List.map_map]
  congr 1
  apply List.map_congr_left
  intro i _
  simp [Function.comp, Nat.add_assoc]

/-- With enough fuel, the 14-sector batching loop reads exactly the
requested sector range. -/
theorem batchReadAux_eq (disk : Nat → List Nat) (base : Nat) :
    ∀ (fuel n off : Nat), n ≤ fuel →
      batchReadAux disk base fuel n off = cardRead disk (base + off) n := by
  intro fuel
  induction fuel with
  | zero =>
    intro n off h
    have : n = 0 := by omega
    subst this
    simp [batchReadAux, cardRead]
  | succ fuel ih =>
    intro n off h
    unfold batchReadAux
    by_cases h0 : n = 0
    · subst h0
      simp [cardRead]
    · rw [if_neg h0]
      have hb1 : 1 ≤ min n 14 := by omega
      dsimp only
      rw [ih (n - min n 14) (off + min n 14) (by omega)]
      have harr : base + (off + min n 14) = base + off + min n 14 := by omega
      rw [harr, ← cardRead_append]
      have : min n 14 + (n - min n 14) = n := by omega
      rw [this]

/-- The batching loop as called by the adapter equals one contiguous read. -/
theorem batchRead_eq (disk : Nat → List Nat) (base n off : Nat) :
    batchRead disk base n off = cardRead disk (base + off) n :=
  batchReadAux_eq disk base n n off (Nat.le_refl n)

/-- Length of a contiguous read over a store of uniform sector size. -/
theorem cardRead_length (disk : Nat → List Nat) (S : Nat)
    (hdisk : ∀ lba, (disk lba).length = S) (lba n : Nat) :
    (cardRead disk lba n).length = n * S := by
  induction n with
  | zero => simp [cardRead]
  | succ n ih =>
    have hsplit : cardRead disk lba (n + 1) =
        cardRead disk lba n ++ cardRead disk (lba + n) 1 :=
      cardRead_append disk lba n 1
    rw [hsplit]
    have h1 : (cardRead disk (lba + n) 1).length = S := by
      simp [cardRead, hdisk, Function.comp, show List.range 1 = [0] from rfl]
    rw [List.length_append, ih, h1]
    ring

/-- A whole-cluster read is the contiguous read of the cluster's sectors. -/
theorem readWholeCluster_eq (disk : Nat → List Nat) (p : FatParams) (c : Nat) :
    readWholeCluster disk p c =
      cardRead disk (p.startLBA + calculateFirstSectorOfCluster p c)
        p.sectorsPerCluster := by
  unfold readWholeCluster batchRead
  rw [batchReadAux_eq _ _ _ _ _ (Nat.le_refl _), Nat.add_zero]

/-- A whole-cluster read yields exactly one cluster's worth of bytes. -/
theorem readWholeCluster_length (disk : Nat → List Nat) (p : FatParams)
    (hdisk : ∀ lba, (disk lba).length = p.sectorSize) (c : Nat) :
    (readWholeCluster disk p c).length = clusterSize p := by
  rw [readWholeCluster_eq, cardRead_length disk p.sectorSize hdisk]
  unfold clusterSize
  ring

/-- On a store of uniform sector size (a multiple of 4, at least 4), the FAT
lookup never reads out of bounds and returns the chain successor. -/
theorem fatLookup_some (disk : Nat → List Nat) (p : FatParams)
    (hS4 : 4 ≤ p.sectorSize) (hdvd : 4 ∣ p.sectorSize)
    (hdisk : ∀ lba, (disk lba).length = p.sectorSize) (c : Nat) :
    fatLookup disk p c = some (fatNext disk p c) := by
  have hlen : (cardRead disk (p.fatStartLBA + c * 4 / p.sectorSize) 1).length
      = p.sectorSize := by
    rw [cardRead_length disk p.sectorSize hdisk]
    omega
  have hguard : c * 4 % p.sectorSize + 4 ≤
      (cardRead disk (p.fatStartLBA + c * 4 / p.sectorSize) 1).length := by
    rw [hlen]
    have h1 : c * 4 % p.sectorSize < p.sectorSize := Nat.mod_lt _ (by omega)
    have h2 : 4 ∣ c * 4 % p.sectorSize := (Nat.dvd_mod_iff hdvd).mpr ⟨c, by ring⟩
    obtain ⟨k, hk⟩ := hdvd
    obtain ⟨m, hm⟩ := h2
    omega
  simp only [fatNext, fatLookup, readU32LE]
  rw [if_pos hguard]
  simp

/-- Length of the concatenation of whole-cluster reads. -/
theorem flattenClusters_length (disk : Nat → List Nat) (p : FatParams)
    (hdisk : ∀ lba, (disk lba).length = p.sectorSize) (l : List Nat) :
    ((l.map (readWholeCluster disk p)).flatten).length = clusterSize p * l.length := by
  induction l with
  | nil => simp
  | cons c rest ih =>
    simp only [List.map_cons, List.flatten_cons, List.length_append, ih,
      readWholeCluster_length disk p hdisk, List.length_cons]
    ring

/-- The instrumented `getFileContent` while loop follows the FAT chain: with
fuel above `remaining` and a chain long enough to supply `remaining` bytes,
it returns the concatenated chain contents truncated to `remaining`, and
every cluster it issues a data read for lies in `[2, 0x0FFFFFF8)`. -/
theorem getFileContentLoop_chain (disk : Nat → List Nat) (p : FatParams)
    (hS4 : 4 ≤ p.sectorSize) (hdvd : 4 ∣ p.sectorSize) (hspc : 1 ≤ p.sectorsPerCluster)
    (hdisk : ∀ lba, (disk lba).length = p.sectorSize) :
    ∀ (fuel remaining cluster F : Nat), remaining < fuel →
      remaining ≤ clusterSize p * (chainClusters disk p F cluster).length →
      ∃ rds,
        getFileContentLoop disk p fuel remaining cluster =
          some ((((chainClusters disk p F cluster).map (readWholeCluster disk p)).flatten).take
            remaining, rds) ∧
        ∀ x ∈ rds, 2 ≤ x ∧ x < 0x0FFFFFF8 := by
  intro fuel
  induction fuel with
  | zero => intro r c F h; omega
  | succ fuel ih =>
    intro remaining cluster F hfuel hsup
    by_cases hrem : remaining = 0
    · subst hrem
      refine ⟨[], ?_, by simp⟩
      unfold getFileContentLoop
      rw [if_neg (by simp)]
      simp
    · have hcs : 1 ≤ clusterSize p := by
        have := Nat.mul_pos (show 0 < p.sectorSize by omega)
          (show 0 < p.sectorsPerCluster by omega)
        unfold clusterSize
        omega
      have hpos : 0 < (chainClusters disk p F cluster).length := by
        by_contra hlen
        have h0 : (chainClusters disk p F cluster).length = 0 := by omega
        rw [h0, Nat.mul_zero] at hsup
        omega
      obtain ⟨F', rfl⟩ : ∃ F', F = F' + 1 := by
        cases F with
        | zero => simp [chainClusters] at hpos
        | succ F' => exact ⟨F', rfl⟩
      have hguard : 2 ≤ cluster ∧ cluster < 0x0FFFFFF8 := by
        by_contra hg
        have hnil : chainClusters disk p (F' + 1) cluster = [] := by
          unfold chainClusters
          rw [if_neg hg]
        rw [hnil] at hpos
        simp at hpos
      have hchain : chainClusters disk p (F' + 1) cluster =
          cluster :: chainClusters disk p F' (fatNext disk p cluster) := by
        conv_lhs => unfold chainClusters
        rw [if_pos hguard]
      have hsup2 : remaining ≤
          clusterSize p * ((chainClusters disk p F' (fatNext disk p cluster)).length + 1) := by
        rw [hchain] at hsup
        simpa [Nat.mul_succ, Nat.mul_add] using hsup
      have hsup' : remaining - min remaining (clusterSize p) ≤
          clusterSize p * (chainClusters disk p F' (fatNext disk p cluster)).length := by
        rw [Nat.mul_add, Nat.mul_one] at hsup2
        omega
      obtain ⟨rds', heq', hrds'⟩ :=
        ih (remaining - min remaining (clusterSize p)) (fatNext disk p cluster) F'
          (by omega) hsup'
      refine ⟨cluster :: rds', ?_, ?_⟩
      · unfold getFileContentLoop
        rw [if_pos ⟨hguard.1, hguard.2, by omega⟩]
        dsimp only
        rw [fatLookup_some disk p hS4 hdvd hdisk cluster]
        dsimp only
        rw [heq']
        dsimp only
        rw [hchain]
        simp only [List.map_cons, List.flatten_cons, List.take_append_eq_append_take]
        have hlen : (readWholeCluster disk p cluster).length = clusterSize p :=
          readWholeCluster_length disk p hdisk cluster
        have hA : (readWholeCluster disk p cluster).take (min remaining (clusterSize p)) =
            (readWholeCluster disk p cluster).take remaining := by
          rcases Nat.le_total remaining (clusterSize p) with hle | hge
          · rw [Nat.min_eq_left hle]
          · rw [Nat.min_eq_right hge, List.take_of_length_le (by omega),
              List.take_of_length_le (by omega)]
        have hB : remaining - min remaining (clusterSize p) =
            remaining - (readWholeCluster disk p cluster).length := by
          rw [hlen]
          omega
        rw [hA, hB]
      · intro x hx
        rcases List.mem_cons.mp hx with rfl | hx'
        · exact hguard
        · exact hrds' x hx'

/-- A `watchPass2` file classified new comes from an unstable entry whose
recorded size matches the current listing and whose detection timestamp is
more than `checkInterval * 2` in the past. -/
theorem watchPass2_new_stability (checkInterval : Nat) (current : List (String × WFile))
    (now : Nat) :
    ∀ (pend : List (String × (Nat × Nat))) (s : WatchState) (f : WFile),
      f ∈ (watchPass2 checkInterval current now pend s).2 →
      ∃ fileName sz det, (fileName, (sz, det)) ∈ pend ∧
        objLookup current fileName = some f ∧ sz = f.size ∧
        now - det > checkInterval * 2 := by
  intro pend
  induction pend with
  | nil =>
    intro s f hf
    simp [watchPass2] at hf
  | cons head tail ih =>
    obtain ⟨fileName, sz, det⟩ := head
    intro s f hf
    unfold watchPass2 at hf
    cases hcur : objLookup current fileName with
    | some currentFile =>
      simp only [hcur] at hf
      by_cases h1 : sz = currentFile.size
      · rw [if_pos h1] at hf
        by_cases h2 : now - det > checkInterval * 2
        · rw [if_pos h2] at hf
          simp only [List.mem_cons] at hf
          rcases hf with rfl | hf
          · exact ⟨fileName, sz, det, List.mem_cons_self _ _, hcur, h1, h2⟩
          · obtain ⟨n, z, d, hmem, hrest⟩ := ih _ f hf
            exact ⟨n, z, d, List.mem_cons_of_mem _ hmem, hrest⟩
        · rw [if_neg h2] at hf
          obtain ⟨n, z, d, hmem, hrest⟩ := ih _ f hf
          exact ⟨n, z, d, List.mem_cons_of_mem _ hmem, hrest⟩
      · rw [if_neg h1] at hf
        obtain ⟨n, z, d, hmem, hrest⟩ := ih _ f hf
        exact ⟨n, z, d, List.mem_cons_of_mem _ hmem, hrest⟩
    | none =>
      simp only [hcur] at hf
      obtain ⟨n, z, d, hmem, hrest⟩ := ih _ f hf
      exact ⟨n, z, d, List.mem_cons_of_mem _ hmem, hrest⟩

/-! ## Claim theorems -/

/-- Claim C1: for every file entry whose FAT cluster chain starting at
`entry.firstCluster` supplies at least `entry.size` bytes (over a volume
with a positive power-of-two-compatible geometry: sector size at least 4 and
a multiple of 4, at least one sector per cluster, uniform sector length),
`FAT32Adapter.getFileContent` returns exactly `entry.size` bytes equal to
the concatenation of the chain's cluster contents truncated to
`entry.size`, and every cluster it issues a data read for satisfies
`2 ≤ cluster < 0x0FFFFFF8`; in particular, the S4 volume (sector size 512,
one sector per cluster, FAT entries 2 to 3, 3 to 4, 4 to 0x0FFFFFFF, three
512-byte payloads) with firstCluster 2 and size 1436 yields the first 1436
bytes of the three payloads in order, reading exactly clusters 2, 3, 4. -/
theorem getFileContent_chain :
    (∀ (disk : Nat → List Nat) (p : FatParams) (size c0 : Nat),
      4 ≤ p.sectorSize → 4 ∣ p.sectorSize → 1 ≤ p.sectorsPerCluster →
      (∀ lba, (disk lba).length = p.sectorSize) →
      size ≤ clusterSize p * (chainClusters disk p size c0).length →
      ∃ bytes rds,
        getFileContent disk p size c0 = some (bytes, rds) ∧
        bytes =
          (((chainClusters disk p size c0).map (readWholeCluster disk p)).flatten).take size ∧
        bytes.length = size ∧
        ∀ x ∈ rds, 2 ≤ x ∧ x < 0x0FFFFFF8) ∧
    getFileContent s4disk s4params 1436 2 =
      some (List.replicate 512 65 ++ List.replicate 512 66 ++ List.replicate 412 67,
        [2, 3, 4]) := by
  refine ⟨?_, by set_option maxRecDepth 100000 in rfl⟩
  intro disk p size c0 hS4 hdvd hspc hdisk hsup
  obtain ⟨rds, heq, hrds⟩ :=
    getFileContentLoop_chain disk p hS4 hdvd hspc hdisk (size + 1) size c0 size
      (by omega) hsup
  refine ⟨_, rds, heq, rfl, ?_, hrds⟩
  rw [List.length_take, flattenClusters_length disk p hdisk]
  omega

set_option maxRecDepth 100000 in
/-- Witness for C1: the general theorem applied to the concrete S4 volume. -/
theorem getFileContent_chain_witness :
    ∃ bytes rds,
      getFileContent s4disk s4params 1436 2 = some (bytes, rds) ∧
      bytes =
        (((chainClusters s4disk s4params 1436 2).map
          (readWholeCluster s4disk s4params)).flatten).take 1436 ∧
      bytes.length = 1436 ∧
      ∀ x ∈ rds, 2 ≤ x ∧ x < 0x0FFFFFF8 :=
  getFileContent_chain.1 s4disk s4params 1436 2 (by decide) (by decide) (by decide)
    (fun lba => by
      simp only [s4disk]
      split_ifs <;> simp [s4fat, s4params])
    (by
      have hchain : chainClusters s4disk s4params 1436 2 = [2, 3, 4] := by
        set_option maxRecDepth 100000 in rfl
      rw [hchain]
      decide)

/-- Claim C2 counterexample: on the very cluster the claim describes (LFN
order 2 fragment "e.jpg", then LFN order 1|0x40 fragment "longname", then
short entry "LONGNA~1.JPG", then "README  TXT"), `listCluster` yields the
name "longnamee.jpg" — the order-1 fragment prepended to the accumulated
"e.jpg" — not the claimed "longname.jpg". -/
theorem listCluster_lfn_counterexample :
    (listCluster c2disk c2params 2).map IFileInfo.name = ["longnamee.jpg", "README.TXT"] ∧
    "longnamee.jpg" ≠ "longname.jpg" :=
  ⟨by set_option maxRecDepth 100000 in rfl, by decide⟩

/-- Claim C2 as amended: an entry with attribute byte 0x0F and positive
order contributes its UTF-16LE characters (offsets 1-11, 14-26, 28-32,
truncated at the first U+0000) prepended to the accumulating long-name
buffer, and the next short entry takes the accumulated buffer as its name;
the claim's concrete cluster therefore yields "longnamee.jpg" (fragment
"longname" prepended to fragment "e.jpg") followed by "README.TXT". -/
theorem listCluster_lfn_reassembly :
    (∀ (entry : List Nat) (rest : List (List Nat)) (lfn : String),
      entry.getD 0 0 ≠ 0x00 → entry.getD 0 0 ≠ 0xE5 → entry.getD 11 0 = 0x0F →
      entry.getD 0 0 &&& 0x1F > 0 →
      parseDirEntries (entry :: rest) lfn = parseDirEntries rest (lfnFragment entry ++ lfn)) ∧
    listCluster c2disk c2params 2 =
      [⟨"longnamee.jpg", 16, false, 5, .epoch, .epoch⟩,
       ⟨"README.TXT", 0, false, 0, .epoch, .epoch⟩] := by
  refine ⟨fun entry rest lfn h0 hE5 hAttr hOrd => ?_,
    by set_option maxRecDepth 100000 in rfl⟩
  conv_lhs => unfold parseDirEntries
  rw [if_neg h0, if_neg hE5, if_pos hAttr, if_pos hOrd]

/-- Witness for C2: the amended step equation applied to the concrete
order-2 LFN fragment entry. -/
theorem listCluster_lfn_reassembly_witness :
    parseDirEntries [lfnE1] "" = parseDirEntries [] (lfnFragment lfnE1 ++ "") :=
  listCluster_lfn_reassembly.1 lfnE1 [] "" (by decide) (by decide) (by decide) (by decide)

/-- Claim C3: for every 512-byte MBR sector, `getPartitions` returns
exactly the non-zero-type partition-table entries (offset 446, four 16-byte
slots) in table order with their little-endian start LBA and length and the
mapped file-system tag; the S3 table (entry 0 of type 0x0C, start 0x800,
length 0x2000, entries 1-3 zeroed) yields the single partition
(2048, 8192, FAT32). -/
theorem getPartitions_parsesMBR :
    (∀ MBR : List Nat, MBR.length = 512 →
      getPartitions MBR = some (mbrPartitionsSpec MBR)) ∧
    getPartitions mbrS3 = some [⟨2048, 8192, "FAT32"⟩] := by
  refine ⟨fun MBR h => ?_, by set_option maxRecDepth 8000 in rfl⟩
  simp only [getPartitions, mbrPartitionsSpec, readPartitionEntry, readU8, readU32LE, h,
    show List.range 4 = [0, 1, 2, 3] from rfl, List.foldlM, List.filterMap, getU32LE]
  norm_num
  split_ifs <;> simp

/-- Witness for C3: the general parse applied to the S3 sector. -/
theorem getPartitions_parsesMBR_witness :
    getPartitions mbrS3 = some (mbrPartitionsSpec mbrS3) :=
  getPartitions_parsesMBR.1 mbrS3 (by set_option maxRecDepth 8000 in rfl)

/-- Claim C4 (code bug): on the timeout path the rejection makes the `await`
throw before the `delete`, so the slot for transfer id 93 is still in the
pending map after the read fails, and a late matching response datagram
finds the slot (calling `resolve` on the settled promise, a no-op) instead
of being dropped through the unknown-transfer-id branch; only the resolved
path removes the slot. -/
theorem timeoutSlot_not_evicted :
    lookupSlot (readBinaryDataTimeout freshCard 0 1).state.dataPromises 93 =
      some (.rejectedTimeout s2Request) ∧
    incomingReadData (readBinaryDataTimeout freshCard 0 1).state.dataPromises lateResponse93 =
      ((readBinaryDataTimeout freshCard 0 1).state.dataPromises, .resolvedSlot) ∧
    (∀ data : List Nat,
      lookupSlot (readBinaryDataResolved freshCard 0 1 data).1.dataPromises 93 = none) :=
  ⟨rfl, rfl, fun _ => rfl⟩

/-- Claim C5: on a fresh card with no inbound datagrams, `readBinaryData(0,
1)` fails after one `READ_TIMEOUT` interval (5000 ms) with a `TimeoutError`
carrying the 52-byte request: header "FC1307", direction 1, command 4,
LBA 0 (u32 BE), count 1 (u16 BE), credential lengths 5/5, zero-padded
"admin"/"admin" at offsets 16 and 32, and transfer id 93 (u32 BE) at 48. -/
theorem readBinaryData_timeout_request :
    readBinaryDataTimeout freshCard 0 1 =
      ⟨⟨94, [(93, .rejectedTimeout s2Request)]⟩, 5000, s2Request⟩ ∧
    s2Request =
      [70, 67, 49, 51, 48, 55, 1, 4, 0, 0, 0, 0, 0, 1, 5, 5,
       97, 100, 109, 105, 110, 0, 0, 0, 0, 0, 0, 0, 0, 0, 0, 0,
       97, 100, 109, 105, 110, 0, 0, 0, 0, 0, 0, 0, 0, 0, 0, 0,
       0, 0, 0, 93] := ⟨rfl, rfl⟩

/-- Claim C6 (code bug): the bounds check `partitions.length < partition`
raises the partition-out-of-range error if and only if the requested index
strictly exceeds the partition count, not when it equals it; at index =
count (here: no partitions, index 0) the code instead reads `.type` of
`undefined` and raises a TypeError. -/
theorem getFileSystemAdapter_offByOne :
    (∀ (partitions : List IPartitionInfo) (partition : Nat),
      getFileSystemAdapter partitions partition = .error (.partitionDoesNotExist partition)
        ↔ partitions.length < partition) ∧
    getFileSystemAdapter [] 0 = .error .jsTypeError := by
  constructor
  · intro partitions partition
    unfold getFileSystemAdapter
    split_ifs with h
    · simp [h]
    · simp only [h, iff_false]
      cases hp : partitions.get? partition with
      | none => simp
      | some p => dsimp only; split_ifs <;> simp
  · rfl

/-- Claim C7 counterexample: running the S6 timeline (seed with a.jpg of
1000 bytes at t=0; passes at t=0, 1000, 2000, 3000 listing sizes 1000,
1500, 1500, 1500) fires no `onNewFile` on any pass — in particular none on
the t=3000 pass — and fires `onFileModified` for a.jpg on the t=1000 pass,
contradicting the claimed single `onNewFile` at t=3000 with no modified
events. -/
theorem watcher_s6_counterexample :
    watcherS6Events.map WatchEvents.newFiles = [[], [], [], []] ∧
    watcherS6Events.map WatchEvents.modifiedFiles = [[], [wA1500], [], []] ∧
    watcherS6Events.map WatchEvents.removedFiles = [[], [], [], []] :=
  ⟨rfl, rfl, rfl⟩

/-- Claim C7 as amended: a file is classified new on a pass only if it came
from an unstable entry whose recorded size equals its current size and
whose detection timestamp is more than `2 × checkInterval` before the pass;
in the S6 timeline the file is seeded as known at start, so the size change
fires exactly one `onFileModified` on the t=1000 pass and no `onNewFile`
fires on any of the four passes. -/
theorem watcher_stability_amended :
    (∀ (checkInterval : Nat) (s : WatchState) (files : List WFile) (now : Nat) (f : WFile),
      f ∈ (detectChanges checkInterval s files now).2.newFiles →
      ∃ fileName sz det,
        (fileName, (sz, det)) ∈ (watchPass1 now files s).1.unstable ∧
        objLookup (currentFilesMap files) fileName = some f ∧ sz = f.size ∧
        now - det > checkInterval * 2) ∧
    watcherS6Events.map WatchEvents.newFiles = [[], [], [], []] ∧
    watcherS6Events.map WatchEvents.modifiedFiles = [[], [wA1500], [], []] := by
  refine ⟨?_, rfl, rfl⟩
  intro checkInterval s files now f hf
  have hmem : f ∈ (watchPass2 checkInterval (currentFilesMap files) now
      (watchPass1 now files s).1.unstable (watchPass1 now files s).1).2 := by
    simpa [detectChanges] using hf
  exact watchPass2_new_stability checkInterval (currentFilesMap files) now _ _ f hmem

/-- Witness for C7: a pass at t=2001 over an unstable entry detected at t=0
with interval 1000 fires a new-file event, and the theorem recovers the
stability conditions for it. -/
theorem watcher_stability_amended_witness :
    ∃ fileName sz det,
      (fileName, (sz, det)) ∈
        (watchPass1 2001 [⟨"b.jpg", 10, .epoch⟩]
          ⟨[], [("b.jpg", (10, 0))]⟩).1.unstable ∧
      objLookup (currentFilesMap [⟨"b.jpg", 10, .epoch⟩]) fileName =
        some ⟨"b.jpg", 10, .epoch⟩ ∧ sz = (10 : Nat) ∧ 2001 - det > 1000 * 2 :=
  watcher_stability_amended.1 1000 ⟨[], [("b.jpg", (10, 0))]⟩ [⟨"b.jpg", 10, .epoch⟩] 2001
    ⟨"b.jpg", 10, .epoch⟩ (by decide)

/-- Claim C8 (code bug): `Card.destroy()` has an empty body and leaves the
transport state untouched, so after destroying a card the per-peer handler
table still contains the entry installed by the card's constructor; the
`unsubscribeForCard` method that would remove it is never called. -/
theorem cardDestroy_leavesSubscription :
    (∀ (m : SubscriberMap) (ip : String), cardDestroy m ip = m) ∧
    lookupSubscriber
      (cardDestroy (cardConstructorSubscribe [] "192.168.0.123" 7) "192.168.0.123")
      "192.168.0.123" = some 7 ∧
    unsubscribeForCard (cardConstructorSubscribe [] "192.168.0.123" 7) "192.168.0.123" = [] :=
  ⟨fun _ _ => rfl, rfl, rfl⟩

/-- Claim C9: `listFolder` uppercases the whole path and walks it with
strict string equality: the empty path and "/" both resolve to the root
listing (empty segments are skipped); every segment of any path is free of
lowercase ASCII letters, so the strict-equality `find` can never select an
entry whose stored name contains a lowercase letter; and a non-empty
segment with no match fails with the folder-not-found error. -/
theorem listFolder_strictNameMatch :
    (∀ (disk : Nat → List Nat) (p : FatParams),
      listFolder disk p "" = .ok (listCluster disk p p.rootCluster) ∧
      listFolder disk p "/" = .ok (listCluster disk p p.rootCluster)) ∧
    (∀ (path seg : String), seg ∈ pathSegments path →
      ∀ c ∈ seg.data, isAsciiLower c = false) ∧
    (∀ (files : List IFileInfo) (seg : String) (f : IFileInfo),
      (∀ c ∈ seg.data, isAsciiLower c = false) → hasAsciiLower f.name = true →
      findFolder files seg ≠ some f) ∧
    (∀ (disk : Nat → List Nat) (p : FatParams) (seg : String) (rest : List String)
      (files : List IFileInfo), seg ≠ "" → findFolder files seg = none →
      listFolderLoop disk p (seg :: rest) files = .error (.folderNotFound seg)) := by
  refine ⟨fun disk p => ⟨rfl, rfl⟩, ?_, ?_, ?_⟩
  · intro path seg hseg c hc
    simp only [pathSegments, List.mem_map] at hseg
    obtain ⟨cs, hcs, rfl⟩ := hseg
    have hmem : c ∈ (jsToUpper path).data := splitOnChar_chars '/' _ cs hcs c hc
    simp only [jsToUpper, List.mem_map] at hmem
    obtain ⟨c0, _, rfl⟩ := hmem
    exact toUpper_not_asciiLower c0
  · intro files seg f hseg hlow hfind
    have hp := List.find?_some hfind
    simp only [decide_eq_true_eq, Bool.and_eq_true] at hp
    obtain ⟨hname, _⟩ := hp
    simp only [hasAsciiLower, List.any_eq_true] at hlow
    obtain ⟨c, hcmem, hclow⟩ := hlow
    have hfalse : isAsciiLower c = false := hseg c (hname ▸ hcmem)
    rw [hfalse] at hclow
    exact Bool.false_ne_true hclow
  · intro disk p seg rest files hne hnone
    unfold listFolderLoop
    rw [if_neg hne, hnone]

/-- Witness for C9: the theorem's parts applied at concrete inputs — the
segments of "/Foo" are uppercase, the uppercased segment "FOO" never
matches the stored lowercase name "foo", and an unmatched segment fails
with folder-not-found. -/
theorem listFolder_strictNameMatch_witness :
    (∀ c ∈ ("FOO" : String).data, isAsciiLower c = false) ∧
    findFolder [⟨"foo", 0, true, 0, .epoch, .epoch⟩] "FOO" ≠
      some ⟨"foo", 0, true, 0, .epoch, .epoch⟩ ∧
    listFolderLoop c2disk c2params ["FOO"] [] = .error (.folderNotFound "FOO") :=
  ⟨listFolder_strictNameMatch.2.1 "/Foo" "FOO" (by decide),
   listFolder_strictNameMatch.2.2.1 _ "FOO" _ (by decide) (by decide),
   listFolder_strictNameMatch.2.2.2 c2disk c2params "FOO" [] [] (by decide) (by decide)⟩

/-- Claim C10: the command-4 field extraction reads fixed offsets up to 23
and slices the payload from offset 24 with no length validation — it is
total exactly on datagrams of at least 24 bytes — and an 8-byte datagram
whose byte 7 is 4 makes the reads go out of bounds, so the handler raises
instead of logging and dropping the packet. -/
theorem incomingReadData_no_length_validation :
    (∀ msg : List Nat, (parseIncomingReadData msg).isSome ↔ 24 ≤ msg.length) ∧
    shortDatagram4.length < 24 ∧
    readU8 shortDatagram4 7 = some 4 ∧
    onMessage [] shortDatagram4 = ([], .raised) := by
  refine ⟨fun msg => ?_, by decide, by rfl, by rfl⟩
  constructor
  · intro hs
    by_contra hlen
    unfold parseIncomingReadData readU32BE readU16BE at hs
    rw [if_neg (by omega : ¬ (22 + 2 ≤ msg.length))] at hs
    simp at hs
  · intro h
    unfold parseIncomingReadData readU32BE readU16BE
    rw [if_pos (by omega : 8 + 4 ≤ msg.length), if_pos (by omega : 12 + 2 ≤ msg.length),
      if_pos (by omega : 14 + 2 ≤ msg.length), if_pos (by omega : 16 + 2 ≤ msg.length),
      if_pos (by omega : 18 + 4 ≤ msg.length), if_pos (by omega : 22 + 2 ≤ msg.length)]
    simp

end WiFiSDCF
